import Mathlib

/-!
Shallow embedding of the Move VM transaction data cache
(`language/move-vm/runtime/src/data_cache.rs`) and the session effects model
(`language/move-vm/types/src/effects.rs`), together with proofs of the
specified properties of `into_effects`, `load_resource`, `load_module`,
`publish_module`, `emit_event`, `num_mutated_accounts` and the
`AccountChangeSet`/`ChangeSet` builders.

Identifier-like leaf types (addresses, module names, runtime types, struct
tags, layouts, values) are abstracted to `Nat`; `BTreeMap` is embedded as an
association list kept sorted by key, with `mapInsert`/`mapGet`/`mapContains`
mirroring `insert`/`get`/`contains_key`. External collaborators that live
outside the embedded files (the loader's type queries, the resolver, the
value codec, the global value slot and the `Op` type) are modelled from the
spec and passed in through a `VMContext`.
-/

namespace MoveVMCache

/-- Account addresses (`AccountAddress`), abstracted to `Nat`. -/
abbrev AccountAddress := Nat

/-- Module names (`Identifier`), abstracted to `Nat`. -/
abbrev Identifier := Nat

/-- Raw byte blobs (`Vec<u8>`); individual bytes are unconstrained. -/
abbrev Bytes := List Nat

/-- Runtime types (`move_vm_types::loaded_data::runtime_types::Type`),
abstracted to `Nat`. -/
abbrev RTy := Nat

/-- Struct tags (`StructTag`), abstracted to `Nat`. -/
abbrev StructTag := Nat

/-- Serialization layouts (`MoveTypeLayout`), abstracted to `Nat`. -/
abbrev MoveTypeLayout := Nat

/-- Typed Move values (`Value`), abstracted to `Nat`. -/
abbrev Value := Nat

/-- `TypeTag`: either a struct tag or one of the non-struct tags
(primitives, vectors, ...), which are not further distinguished. -/
inductive TypeTag where
  | struct (s : StructTag)
  | nonStruct (n : Nat)
deriving DecidableEq

/-- `ModuleId`: an address paired with a module name. -/
structure ModuleId where
  address : AccountAddress
  name : Identifier
deriving DecidableEq

/-- `BTreeMap::insert` on an association list kept sorted by key;
an existing binding of the same key is replaced. -/
def mapInsert {α : Type} (k : Nat) (v : α) : List (Nat × α) → List (Nat × α)
  | [] => [(k, v)]
  | (k₀, v₀) :: rest =>
    if k < k₀ then (k, v) :: (k₀, v₀) :: rest
    else if k = k₀ then (k, v) :: rest
    else (k₀, v₀) :: mapInsert k v rest

/-- `BTreeMap::get`. -/
def mapGet {α : Type} (k : Nat) : List (Nat × α) → Option α
  | [] => none
  | (k₀, v₀) :: rest => if k = k₀ then some v₀ else mapGet k rest

/-- `BTreeMap::contains_key`. -/
def mapContains {α : Type} (k : Nat) (m : List (Nat × α)) : Bool :=
  (mapGet k m).isSome

/-- `get_mut_or_insert_with`: the map after making sure key `k` is bound
(binding it to the default `d` when absent). -/
def getOrInsert {α : Type} (m : List (Nat × α)) (k : Nat) (d : α) : List (Nat × α) :=
  if mapContains k m then m else mapInsert k d m

/-- Modelled from the spec: the external "Global Value Slot"
(`move_vm_types::values::GlobalValue`, not under the embedded sources).
The spec gives four logical states — absent, clean-cached, dirty-cached,
fresh — with the absent state split here by pre-transaction lineage
(never existed vs deleted) so that the diff operation can yield delete as
well as no-op, as the spec's diff contract requires. -/
inductive GlobalValue where
  | absent
  | deleted
  | fresh (v : Value)
  | cleanCached (v : Value)
  | dirtyCached (v : Value)
deriving DecidableEq

/-- Modelled from the spec: `move_core_types::effects::Op` (not under the
embedded sources), the create/modify/delete operation attached to a key of
a change set. -/
inductive Op (α : Type) where
  | New (v : α)
  | Modify (v : α)
  | Delete
deriving DecidableEq

/-- Modelled from the spec: the slot's three-way diff
(`GlobalValue::into_effect`): no-op for absent and clean slots, create for
fresh, modify for dirty, delete for deleted. -/
def GlobalValue.into_effect : GlobalValue → Option (Op Value)
  | .absent => none
  | .deleted => some .Delete
  | .fresh v => some (.New v)
  | .cleanCached _ => none
  | .dirtyCached v => some (.Modify v)

/-- Modelled from the spec: whether a slot was mutated (created, changed or
deleted) rather than merely read (`GlobalValue::is_mutated`). -/
def GlobalValue.is_mutated : GlobalValue → Bool
  | .absent => false
  | .cleanCached _ => false
  | .deleted => true
  | .fresh _ => true
  | .dirtyCached _ => true

/-- Status codes used by the embedded sources. -/
inductive StatusCode where
  | INTERNAL_TYPE_ERROR
  | FAILED_TO_DESERIALIZE_RESOURCE
  | UNKNOWN_INVARIANT_VIOLATION_ERROR
  | LINKER_ERROR
  | STORAGE_ERROR
deriving DecidableEq

/-- The diagnostic attached by `with_message`; the source's format strings
are modelled as structured messages carrying the same data. -/
inductive ErrMsg where
  | failedToDeserializeResource (tag : StructTag) (addr : AccountAddress)
  | cannotFindModule (id : ModuleId)
  | unexpectedStorageError (diag : Nat)
deriving DecidableEq

/-- `PartialVMError`: a status code with an optional diagnostic message. -/
structure PartialVMError where
  major_status : StatusCode
  message : Option ErrMsg
deriving DecidableEq

def PartialVMError.new (s : StatusCode) : PartialVMError := ⟨s, none⟩

def PartialVMError.with_message (e : PartialVMError) (m : ErrMsg) : PartialVMError :=
  { e with message := some m }

/-- `Location` of a finished `VMError`; only `Undefined` occurs here. -/
inductive Location where
  | Undefined
deriving DecidableEq

/-- `VMError`: a `PartialVMError` finished with a location. -/
structure VMError where
  partial_vm_error : PartialVMError
  location : Location
deriving DecidableEq

def PartialVMError.finish (e : PartialVMError) (loc : Location) : VMError := ⟨e, loc⟩

/-- `Data`: a resource payload either as raw bytes or as a shared cached
value together with its layout (`effects.rs`). -/
inductive Data where
  | Serialized (blob : Bytes)
  | Cached (value : Value) (layout : MoveTypeLayout)
deriving DecidableEq

/-- `AccountChangeSet`: per-account module and resource operations
(`effects.rs`). -/
structure AccountChangeSet where
  modules : List (Identifier × Op Bytes)
  resources : List (StructTag × Op Data)
deriving DecidableEq

def AccountChangeSet.from_modules_resources (modules : List (Identifier × Op Bytes))
    (resources : List (StructTag × Op Data)) : AccountChangeSet :=
  ⟨modules, resources⟩

def AccountChangeSet.new : AccountChangeSet := ⟨[], []⟩

/-- `AccountChangeSet::add_module_op`: insert-if-absent, bailing on an
occupied entry (the `&mut self` receiver is left untouched on error, which
the `Except` result models by not producing a new state). -/
def AccountChangeSet.add_module_op (acs : AccountChangeSet) (name : Identifier)
    (op : Op Bytes) : Except String AccountChangeSet :=
  match mapGet name acs.modules with
  | some _ => .error "module already exists"
  | none => .ok { acs with modules := mapInsert name op acs.modules }

/-- `AccountChangeSet::add_resource_op`: insert-if-absent, bailing on an
occupied entry. -/
def AccountChangeSet.add_resource_op (acs : AccountChangeSet) (struct_tag : StructTag)
    (op : Op Data) : Except String AccountChangeSet :=
  match mapGet struct_tag acs.resources with
  | some _ => .error "resource already exists"
  | none => .ok { acs with resources := mapInsert struct_tag op acs.resources }

def AccountChangeSet.is_empty (acs : AccountChangeSet) : Bool :=
  acs.modules.isEmpty && acs.resources.isEmpty

/-- `ChangeSet`: the whole-transaction diff, keyed by address
(`effects.rs`). -/
structure ChangeSet where
  accounts : List (AccountAddress × AccountChangeSet)
deriving DecidableEq

def ChangeSet.new : ChangeSet := ⟨[]⟩

/-- `ChangeSet::add_account_changeset`: insert-if-absent, bailing on an
occupied entry. -/
def ChangeSet.add_account_changeset (cs : ChangeSet) (addr : AccountAddress)
    (account_changeset : AccountChangeSet) : Except String ChangeSet :=
  match mapGet addr cs.accounts with
  | some _ => .error "account already exists"
  | none => .ok ⟨mapInsert addr account_changeset cs.accounts⟩

/-- The external collaborators of the transaction data cache, bundled:
the loader's type queries (`Loader::type_to_type_tag`,
`Loader::type_to_type_layout`), the `MoveResolver` backing store
(`get_resource`, `get_module`, whose failures carry a `Nat` diagnostic),
and the value codec (`Value::simple_deserialize`,
`Value::simple_serialize`). All live outside the embedded sources and are
modelled from the spec as abstract deterministic functions. -/
structure VMContext where
  type_to_type_tag : RTy → Except PartialVMError TypeTag
  type_to_type_layout : RTy → Except PartialVMError MoveTypeLayout
  get_resource : AccountAddress → StructTag → Except Nat (Option Bytes)
  get_module : ModuleId → Except Nat (Option Bytes)
  simple_deserialize : Bytes → MoveTypeLayout → Option Value
  simple_serialize : Value → MoveTypeLayout → Option Bytes

/-- `AccountDataCache`: the per-address resource and module write sets
(`data_cache.rs`). -/
structure AccountDataCache where
  data_map : List (RTy × (MoveTypeLayout × GlobalValue))
  module_map : List (Identifier × (Bytes × Bool))
deriving DecidableEq

def AccountDataCache.new : AccountDataCache := ⟨[], []⟩

/-- `TransactionDataCache`: the per-transaction account map and event log
(`data_cache.rs`); the borrowed `remote` resolver and `loader` are passed
to each operation through a `VMContext` instead of being stored. -/
structure TransactionDataCache where
  account_map : List (AccountAddress × AccountDataCache)
  event_data : List (Bytes × Nat × RTy × MoveTypeLayout × Value)
deriving DecidableEq

def TransactionDataCache.new : TransactionDataCache := ⟨[], []⟩

/-- An event as emitted by `into_effects`: guid, sequence number, resolved
type tag, serialized payload. -/
abbrev Event := Bytes × Nat × TypeTag × Bytes

/-- Wrapping of a slot diff into the `Data`-valued operation stored in the
change set (the three `match op` arms of `into_effects`). -/
def opToData (layout : MoveTypeLayout) : Op Value → Op Data
  | .New v => .New (Data.Cached v layout)
  | .Modify v => .Modify (Data.Cached v layout)
  | .Delete => .Delete

/-- The module half of `into_effects`' per-account loop: every write-set
entry becomes `Modify` when republishing and `New` otherwise. -/
def modulesDiff (mm : List (Identifier × (Bytes × Bool))) : List (Identifier × Op Bytes) :=
  mm.map fun e => (e.1, if e.2.2 then Op.Modify e.2.1 else Op.New e.2.1)

/-- The resource half of `into_effects`' per-account loop: three-way diff
of each slot, dropping no-ops, resolving the runtime type to a struct tag
(a non-struct resolution is an internal type error) and inserting the
`Data`-wrapped operation into the accumulated map. -/
def resourcesDiff (ctx : VMContext) :
    List (RTy × (MoveTypeLayout × GlobalValue)) → List (StructTag × Op Data) →
    Except PartialVMError (List (StructTag × Op Data))
  | [], acc => .ok acc
  | (ty, layout, gv) :: rest, acc =>
    match GlobalValue.into_effect gv with
    | none => resourcesDiff ctx rest acc
    | some op =>
      match ctx.type_to_type_tag ty with
      | .error e => .error e
      | .ok (TypeTag.struct s) => resourcesDiff ctx rest (mapInsert s (opToData layout op) acc)
      | .ok (TypeTag.nonStruct _) => .error (PartialVMError.new .INTERNAL_TYPE_ERROR)

/-- The per-account loop of `into_effects`: accounts whose module and
resource diffs are both empty are skipped; otherwise the account change
set is added. The source's `.expect("accounts should be unique")` panic —
unreachable because `account_map` keys are unique — is modelled as an
invariant-violation error. -/
def intoEffectsAccounts (ctx : VMContext) :
    List (AccountAddress × AccountDataCache) → ChangeSet →
    Except PartialVMError ChangeSet
  | [], cs => .ok cs
  | (addr, adc) :: rest, cs =>
    match resourcesDiff ctx adc.data_map [] with
    | .error e => .error e
    | .ok resources =>
      if (modulesDiff adc.module_map).isEmpty && resources.isEmpty then
        intoEffectsAccounts ctx rest cs
      else
        match cs.add_account_changeset addr
            (AccountChangeSet.from_modules_resources (modulesDiff adc.module_map) resources) with
        | .ok cs' => intoEffectsAccounts ctx rest cs'
        | .error _ => .error (PartialVMError.new .UNKNOWN_INVARIANT_VIOLATION_ERROR)

/-- The event loop of `into_effects`: for each logged event in emission
order, resolve its type to a tag and serialize the value with the layout
recorded at emission; a failed serialization is an internal type error. -/
def serializeEvents (ctx : VMContext) :
    List (Bytes × Nat × RTy × MoveTypeLayout × Value) →
    Except PartialVMError (List Event)
  | [] => .ok []
  | (guid, seq_num, ty, ty_layout, val) :: rest =>
    match ctx.type_to_type_tag ty with
    | .error e => .error e
    | .ok ty_tag =>
      match ctx.simple_serialize val ty_layout with
      | none => .error (PartialVMError.new .INTERNAL_TYPE_ERROR)
      | some blob =>
        match serializeEvents ctx rest with
        | .error e => .error e
        | .ok events => .ok ((guid, seq_num, ty_tag, blob) :: events)

/-- `TransactionDataCache::into_effects`: consume the cache into a
change set and the ordered event list. -/
def TransactionDataCache.into_effects (ctx : VMContext) (c : TransactionDataCache) :
    Except PartialVMError (ChangeSet × List Event) :=
  match intoEffectsAccounts ctx c.account_map ChangeSet.new with
  | .error e => .error e
  | .ok change_set =>
    match serializeEvents ctx c.event_data with
    | .error e => .error e
    | .ok events => .ok (change_set, events)

/-- The loop of `num_mutated_accounts`, threading the running total. -/
def numMutatedGo (sender : AccountAddress) :
    List (AccountAddress × AccountDataCache) → Nat → Nat
  | [], total => total
  | (addr, entry) :: rest, total =>
    if addr ≠ sender ∧ (entry.data_map.any fun e => GlobalValue.is_mutated e.2.2) = true then
      numMutatedGo sender rest (total + 1)
    else
      numMutatedGo sender rest total

/-- `TransactionDataCache::num_mutated_accounts`: the sender is always
counted; every other touched account with at least one mutated slot adds
one. -/
def TransactionDataCache.num_mutated_accounts (c : TransactionDataCache)
    (sender : AccountAddress) : Nat :=
  numMutatedGo sender c.account_map 1

/-- The slot installation step of `load_resource`'s first-touch path:
bind the freshly loaded slot under (addr, ty), creating the account entry
first if needed (the `get_mut_or_insert_with` plus `data_map.insert` pair
of the source). -/
def installResource (c : TransactionDataCache) (addr : AccountAddress) (ty : RTy)
    (ty_layout : MoveTypeLayout) (gv : GlobalValue) : TransactionDataCache :=
  let am := getOrInsert c.account_map addr AccountDataCache.new
  let account_cache := (mapGet addr am).getD AccountDataCache.new
  let ac := { account_cache with
    data_map := mapInsert ty (ty_layout, gv) account_cache.data_map }
  { c with account_map := mapInsert addr ac am }

/-- The first-touch path of `load_resource`: resolve the type to its tag
(non-struct resolutions are internal type errors) and layout, query the
resolver, decode found bytes (decode failure is
`FAILED_TO_DESERIALIZE_RESOURCE`), install the new slot and report the
load signal; resolver failure is wrapped as an unknown invariant
violation. -/
def loadResourceFirstTouch (ctx : VMContext) (c : TransactionDataCache)
    (addr : AccountAddress) (ty : RTy) :
    Except PartialVMError (TransactionDataCache × GlobalValue × Option (Option Nat)) :=
  match ctx.type_to_type_tag ty with
  | .error e => .error e
  | .ok (TypeTag.nonStruct _) => .error (PartialVMError.new .INTERNAL_TYPE_ERROR)
  | .ok (TypeTag.struct s_tag) =>
    match ctx.type_to_type_layout ty with
    | .error e => .error e
    | .ok ty_layout =>
      match ctx.get_resource addr s_tag with
      | .ok (some blob) =>
        match ctx.simple_deserialize blob ty_layout with
        | none =>
          .error ((PartialVMError.new .FAILED_TO_DESERIALIZE_RESOURCE).with_message
            (ErrMsg.failedToDeserializeResource s_tag addr))
        | some val =>
          .ok (installResource c addr ty ty_layout (GlobalValue.cleanCached val),
            GlobalValue.cleanCached val, some (some blob.length))
      | .ok none =>
        .ok (installResource c addr ty ty_layout GlobalValue.absent,
          GlobalValue.absent, some none)
      | .error err =>
        .error ((PartialVMError.new .UNKNOWN_INVARIANT_VIOLATION_ERROR).with_message
          (ErrMsg.unexpectedStorageError err))

/-- `TransactionDataCache::load_resource`: serve an already-touched slot
from the cache with no load signal; on first touch run the first-touch
path, which installs the new slot and reports the load signal
(`some (some n)` for `n` bytes found, `some none` for absence). The
returned `GlobalValue` stands for the mutable slot handle. -/
def TransactionDataCache.load_resource (ctx : VMContext) (c : TransactionDataCache)
    (addr : AccountAddress) (ty : RTy) :
    Except PartialVMError (TransactionDataCache × GlobalValue × Option (Option Nat)) :=
  let am := getOrInsert c.account_map addr AccountDataCache.new
  let account_cache := (mapGet addr am).getD AccountDataCache.new
  match mapGet ty account_cache.data_map with
  | some (_, gv) => .ok ({ c with account_map := am }, gv, none)
  | none => loadResourceFirstTouch ctx c addr ty

/-- The remote half of `load_module`: resolver absence is a linker error,
resolver failure is wrapped as an unknown-invariant-violation with the
underlying diagnostic. -/
def loadModuleRemote (ctx : VMContext) (module_id : ModuleId) : Except VMError Bytes :=
  match ctx.get_module module_id with
  | .ok (some bytes) => .ok bytes
  | .ok none =>
    .error (((PartialVMError.new .LINKER_ERROR).with_message
      (ErrMsg.cannotFindModule module_id)).finish Location.Undefined)
  | .error err =>
    .error (((PartialVMError.new .UNKNOWN_INVARIANT_VIOLATION_ERROR).with_message
      (ErrMsg.unexpectedStorageError err)).finish Location.Undefined)

/-- `TransactionDataCache::load_module`: the local write set is consulted
first; only on a local miss is the resolver queried. -/
def TransactionDataCache.load_module (ctx : VMContext) (c : TransactionDataCache)
    (module_id : ModuleId) : Except VMError Bytes :=
  match mapGet module_id.address c.account_map with
  | some account_cache =>
    match mapGet module_id.name account_cache.module_map with
    | some (blob, _) => .ok blob
    | none => loadModuleRemote ctx module_id
  | none => loadModuleRemote ctx module_id

/-- `TransactionDataCache::publish_module`: always writes the blob and the
caller-supplied republishing flag into the local write set (replacing any
earlier write for the same module id), never touches the resolver, and
always succeeds. -/
def TransactionDataCache.publish_module (c : TransactionDataCache) (module_id : ModuleId)
    (blob : Bytes) (is_republishing : Bool) : Except VMError TransactionDataCache :=
  let am := getOrInsert c.account_map module_id.address AccountDataCache.new
  let account_cache := (mapGet module_id.address am).getD AccountDataCache.new
  let ac := { account_cache with
    module_map := mapInsert module_id.name (blob, is_republishing) account_cache.module_map }
  .ok { c with account_map := mapInsert module_id.address ac am }

/-- `TransactionDataCache::exists_module`: two-tier existence check;
resolver failures are reported as a bare storage error. -/
def TransactionDataCache.exists_module (ctx : VMContext) (c : TransactionDataCache)
    (module_id : ModuleId) : Except VMError Bool :=
  let local_hit :=
    match mapGet module_id.address c.account_map with
    | some account_cache => mapContains module_id.name account_cache.module_map
    | none => false
  if local_hit then .ok true
  else
    match ctx.get_module module_id with
    | .ok r => .ok r.isSome
    | .error _ => .error ((PartialVMError.new .STORAGE_ERROR).finish Location.Undefined)

/-- `TransactionDataCache::emit_event`: resolve the layout now, append the
event to the ordered log. -/
def TransactionDataCache.emit_event (ctx : VMContext) (c : TransactionDataCache)
    (guid : Bytes) (seq_num : Nat) (ty : RTy) (val : Value) :
    Except PartialVMError TransactionDataCache :=
  match ctx.type_to_type_layout ty with
  | .error e => .error e
  | .ok ty_layout =>
    .ok { c with event_data := c.event_data ++ [(guid, seq_num, ty, ty_layout, val)] }

/-- The struct tag a runtime type resolves to, if any. -/
def tagOf (ctx : VMContext) (ty : RTy) : Option StructTag :=
  match ctx.type_to_type_tag ty with
  | .ok (TypeTag.struct s) => some s
  | _ => none

/-- The slot stored in the cache for an (address, type) key. -/
def resourceSlot (c : TransactionDataCache) (addr : AccountAddress) (ty : RTy) :
    Option (MoveTypeLayout × GlobalValue) :=
  match mapGet addr c.account_map with
  | some ac => mapGet ty ac.data_map
  | none => none

/-- The operation a change set holds for a module key, if any. -/
def lookupModuleOp (cs : ChangeSet) (addr : AccountAddress) (name : Identifier) :
    Option (Op Bytes) :=
  match mapGet addr cs.accounts with
  | some acs => mapGet name acs.modules
  | none => none

/-- The operation a change set holds for a resource key, if any. -/
def lookupResourceOp (cs : ChangeSet) (addr : AccountAddress) (s : StructTag) :
    Option (Op Data) :=
  match mapGet addr cs.accounts with
  | some acs => mapGet s acs.resources
  | none => none

/-- The module write-set entry the cache holds for a module id, if any
(the two-tier local lookup shared by `load_module` and `exists_module`). -/
def moduleSlot (c : TransactionDataCache) (id : ModuleId) : Option (Bytes × Bool) :=
  match mapGet id.address c.account_map with
  | some account_cache => mapGet id.name account_cache.module_map
  | none => none

/-- A concrete context used by the witnesses: type `99` is the only
non-struct type, every other type is its own struct tag and layout;
address 1 holds resources of tag 5 (bytes `[1,2,3]`) and tag 6 (bytes
`[0]`, which fail to decode); reads of tag 8 at address 7 fail with
diagnostic 42; module (1,2) exists remotely, modules at address 7 fail
with diagnostic 13; value 77 is the only unserializable value. -/
def exCtx : VMContext where
  type_to_type_tag := fun ty =>
    if ty = 99 then .ok (TypeTag.nonStruct 0) else .ok (TypeTag.struct ty)
  type_to_type_layout := fun ty => .ok ty
  get_resource := fun addr s =>
    if addr = 1 ∧ s = 5 then .ok (some [1, 2, 3])
    else if addr = 1 ∧ s = 6 then .ok (some [0])
    else if addr = 7 ∧ s = 8 then .error 42
    else .ok none
  get_module := fun id =>
    if id.address = 1 ∧ id.name = 2 then .ok (some [9])
    else if id.address = 7 then .error 13
    else .ok none
  simple_deserialize := fun blob _ => if blob = [0] then none else some blob.length
  simple_serialize := fun v _ => if v = 77 then none else some [v]

/-- A concrete cache used by the witnesses: address 1 has a dirty slot
(type 5), a clean slot (type 6) and one republished module (name 2);
address 4 was only read; two events are logged. -/
def exCache : TransactionDataCache where
  account_map :=
    [(1, { data_map := [(5, (50, GlobalValue.dirtyCached 11)), (6, (60, GlobalValue.cleanCached 2))],
           module_map := [(2, ([7], true))] }),
     (4, { data_map := [(9, (90, GlobalValue.cleanCached 3))], module_map := [] })]
  event_data := [([1], 0, 5, 50, 33), ([2], 1, 6, 60, 44)]

/-- A concrete cache whose only event holds the unserializable value 77. -/
def exCacheBadEvent : TransactionDataCache where
  account_map := []
  event_data := [([1], 0, 5, 50, 77)]

/-- A concrete builder state used by the collision witnesses. -/
def exAccountChangeSet : AccountChangeSet where
  modules := [(2, Op.New [7])]
  resources := [(5, Op.Delete)]

/-- A concrete change set used by the collision witnesses. -/
def exChangeSet : ChangeSet where
  accounts := [(1, exAccountChangeSet)]

theorem mapGet_insert_self {α : Type} (k : Nat) (v : α) (m : List (Nat × α)) :
    mapGet k (mapInsert k v m) = some v := by
  induction m with
  | nil => simp [mapInsert, mapGet]
  | cons e rest ih =>
    obtain ⟨k₀, v₀⟩ := e
    by_cases h1 : k < k₀
    · simp [mapInsert, h1, mapGet]
    · by_cases h2 : k = k₀
      · simp [mapInsert, h1, h2, mapGet]
      · simp [mapInsert, h1, h2, mapGet, ih]

theorem mapGet_insert_ne {α : Type} {q k : Nat} (h : q ≠ k) (v : α) (m : List (Nat × α)) :
    mapGet q (mapInsert k v m) = mapGet q m := by
  induction m with
  | nil => simp [mapInsert, mapGet, h]
  | cons e rest ih =>
    obtain ⟨k₀, v₀⟩ := e
    by_cases h1 : k < k₀
    · simp [mapInsert, h1, mapGet, h]
    · by_cases h2 : k = k₀
      · subst h2
        simp [mapInsert, h1, mapGet, h]
      · by_cases h3 : q = k₀ <;> simp [mapInsert, h1, h2, mapGet, h3, ih]

theorem mapGet_getOrInsert_self {α : Type} (m : List (Nat × α)) (k : Nat) (d : α) :
    mapGet k (getOrInsert m k d) = some ((mapGet k m).getD d) := by
  unfold getOrInsert mapContains
  cases h : mapGet k m with
  | none => simp [h, mapGet_insert_self]
  | some v => simp [h]

theorem mapGet_mem {α : Type} {k : Nat} {v : α} {m : List (Nat × α)}
    (h : mapGet k m = some v) : (k, v) ∈ m := by
  induction m with
  | nil => simp [mapGet] at h
  | cons e rest ih =>
    obtain ⟨k₀, v₀⟩ := e
    rw [mapGet] at h
    by_cases hk : k = k₀
    · rw [if_pos hk] at h
      cases h
      subst hk
      exact List.mem_cons_self _ _
    · rw [if_neg hk] at h
      exact List.mem_cons_of_mem _ (ih h)

theorem mem_mapGet {α : Type} {m : List (Nat × α)}
    (hd : m.Pairwise fun a b => a.1 ≠ b.1) {e : Nat × α} (he : e ∈ m) :
    mapGet e.1 m = some e.2 := by
  induction m with
  | nil => simp at he
  | cons f rest ih =>
    obtain ⟨k₀, v₀⟩ := f
    rw [List.pairwise_cons] at hd
    rw [mapGet]
    rcases List.mem_cons.mp he with h | h
    · subst h
      simp
    · have hne : e.1 ≠ k₀ := fun heq => hd.1 e h (heq ▸ rfl)
      rw [if_neg hne]
      exact ih hd.2 h

theorem mapGet_some_ne_nil {α : Type} {k : Nat} {v : α} {m : List (Nat × α)}
    (h : mapGet k m = some v) : m ≠ [] := by
  intro hnil
  subst hnil
  simp [mapGet] at h

theorem mem_mapInsert {α : Type} {k : Nat} {v : α} {m : List (Nat × α)} {e : Nat × α}
    (h : e ∈ mapInsert k v m) : e = (k, v) ∨ e ∈ m := by
  induction m with
  | nil =>
    rw [mapInsert] at h
    exact Or.inl (List.mem_singleton.mp h)
  | cons f rest ih =>
    obtain ⟨k₀, v₀⟩ := f
    rw [mapInsert] at h
    by_cases h1 : k < k₀
    · rw [if_pos h1] at h
      exact List.mem_cons.mp h
    · rw [if_neg h1] at h
      by_cases h2 : k = k₀
      · rw [if_pos h2] at h
        rcases List.mem_cons.mp h with h3 | h3
        · exact Or.inl h3
        · exact Or.inr (List.mem_cons_of_mem _ h3)
      · rw [if_neg h2] at h
        rcases List.mem_cons.mp h with h3 | h3
        · exact Or.inr (h3 ▸ List.mem_cons_self _ _)
        · rcases ih h3 with h4 | h4
          · exact Or.inl h4
          · exact Or.inr (List.mem_cons_of_mem _ h4)

/-- Well-formedness of an embedded `BTreeMap`: strictly increasing keys.
Every map reachable through the embedded operations satisfies it. -/
def mapSorted {α : Type} (m : List (Nat × α)) : Prop :=
  List.Pairwise (fun a b => a.1 < b.1) m

instance {α : Type} (m : List (Nat × α)) : Decidable (mapSorted m) := by
  unfold mapSorted
  infer_instance

theorem mapSorted_distinct {α : Type} {m : List (Nat × α)} (h : mapSorted m) :
    m.Pairwise fun a b => a.1 ≠ b.1 :=
  h.imp Nat.ne_of_lt

theorem mapInsert_sorted {α : Type} {m : List (Nat × α)} (k : Nat) (v : α)
    (h : mapSorted m) : mapSorted (mapInsert k v m) := by
  induction m with
  | nil => simp [mapInsert, mapSorted]
  | cons f rest ih =>
    obtain ⟨k₀, v₀⟩ := f
    rw [mapSorted, List.pairwise_cons] at h
    obtain ⟨h1, h2⟩ := h
    rw [mapInsert]
    by_cases hc1 : k < k₀
    · rw [if_pos hc1]
      refine List.Pairwise.cons ?_ (List.Pairwise.cons h1 h2)
      intro b hb
      rcases List.mem_cons.mp hb with h3 | h3
      · rw [h3]
        exact hc1
      · exact Nat.lt_trans hc1 (h1 b h3)
    · rw [if_neg hc1]
      by_cases hc2 : k = k₀
      · rw [if_pos hc2]
        subst hc2
        exact List.Pairwise.cons h1 h2
      · rw [if_neg hc2]
        refine List.Pairwise.cons ?_ (ih h2)
        intro b hb
        rcases mem_mapInsert hb with h3 | h3
        · rw [h3]
          exact Nat.lt_of_le_of_ne (Nat.le_of_not_lt hc1) (fun he => hc2 he.symm)
        · exact h1 b h3

theorem getOrInsert_sorted {α : Type} {m : List (Nat × α)} (k : Nat) (d : α)
    (h : mapSorted m) : mapSorted (getOrInsert m k d) := by
  rw [getOrInsert]
  by_cases hc : mapContains k m = true
  · rw [if_pos hc]
    exact h
  · rw [if_neg hc]
    exact mapInsert_sorted k d h

theorem mapGet_eq_of_mem_of_distinct {α : Type} {m : List (Nat × α)}
    (hd : m.Pairwise fun a b => a.1 ≠ b.1) {k : Nat} {v w : α}
    (hv : mapGet k m = some v) (hw : (k, w) ∈ m) : w = v := by
  have := mem_mapGet hd hw
  rw [hv] at this
  exact (Option.some.injEq _ _ ▸ this).symm ▸ rfl

theorem mapGet_split {α : Type} {m : List (Nat × α)}
    (hd : m.Pairwise fun a b => a.1 ≠ b.1) {k : Nat} {v : α}
    (h : mapGet k m = some v) :
    ∃ m₁ m₂, m = m₁ ++ (k, v) :: m₂ ∧ (∀ e ∈ m₁, e.1 ≠ k) ∧ ∀ e ∈ m₂, e.1 ≠ k := by
  obtain ⟨m₁, m₂, hm⟩ := List.append_of_mem (mapGet_mem h)
  refine ⟨m₁, m₂, hm, ?_, ?_⟩
  · intro e he hek
    subst hm
    rw [List.pairwise_append] at hd
    exact hd.2.2 e he (k, v) (List.mem_cons_self _ _) hek
  · intro e he hek
    subst hm
    rw [List.pairwise_append, List.pairwise_cons] at hd
    exact hd.2.1.1 e he hek.symm

theorem modulesDiff_get (name : Identifier) (mm : List (Identifier × (Bytes × Bool))) :
    mapGet name (modulesDiff mm) =
      (mapGet name mm).map fun p => if p.2 then Op.Modify p.1 else Op.New p.1 := by
  induction mm with
  | nil => simp [modulesDiff, mapGet]
  | cons e rest ih =>
    obtain ⟨n₀, blob, flag⟩ := e
    by_cases h : name = n₀
    · simp [modulesDiff, mapGet, h]
    · simp only [modulesDiff, List.map_cons, mapGet, if_neg h]
      exact ih

theorem modulesDiff_ne_nil {mm : List (Identifier × (Bytes × Bool))} (h : mm ≠ []) :
    modulesDiff mm ≠ [] := by
  cases mm with
  | nil => exact absurd rfl h
  | cons e rest => simp [modulesDiff]

theorem resourcesDiff_append {ctx : VMContext}
    {l₁ l₂ : List (RTy × (MoveTypeLayout × GlobalValue))}
    {acc res : List (StructTag × Op Data)}
    (h : resourcesDiff ctx (l₁ ++ l₂) acc = .ok res) :
    ∃ mid, resourcesDiff ctx l₁ acc = .ok mid ∧ resourcesDiff ctx l₂ mid = .ok res := by
  induction l₁ generalizing acc with
  | nil => exact ⟨acc, rfl, h⟩
  | cons e rest ih =>
    obtain ⟨ty, layout, gv⟩ := e
    rw [List.cons_append, resourcesDiff] at h
    rw [resourcesDiff]
    cases hgv : GlobalValue.into_effect gv with
    | none =>
      rw [hgv] at h
      exact ih h
    | some op =>
      rw [hgv] at h
      cases htag : ctx.type_to_type_tag ty with
      | error e₀ =>
        rw [htag] at h
        cases h
      | ok tg =>
        rw [htag] at h
        cases tg with
        | struct s =>
          exact ih h
        | nonStruct n =>
          cases h

theorem resourcesDiff_get_skip {ctx : VMContext}
    {l : List (RTy × (MoveTypeLayout × GlobalValue))}
    {acc res : List (StructTag × Op Data)} {s : StructTag}
    (h : resourcesDiff ctx l acc = .ok res)
    (hs : ∀ e ∈ l, GlobalValue.into_effect e.2.2 = none ∨ tagOf ctx e.1 ≠ some s) :
    mapGet s res = mapGet s acc := by
  induction l generalizing acc with
  | nil =>
    cases h
    rfl
  | cons e rest ih =>
    obtain ⟨ty, layout, gv⟩ := e
    rw [resourcesDiff] at h
    cases hgv : GlobalValue.into_effect gv with
    | none =>
      rw [hgv] at h
      exact ih h fun e he => hs e (List.mem_cons_of_mem _ he)
    | some op =>
      rw [hgv] at h
      cases htag : ctx.type_to_type_tag ty with
      | error e₀ =>
        rw [htag] at h
        cases h
      | ok tg =>
        rw [htag] at h
        cases tg with
        | struct s₀ =>
          have hne : s₀ ≠ s := by
            rcases hs (ty, layout, gv) (List.mem_cons_self _ _) with h₁ | h₁
            · rw [hgv] at h₁
              cases h₁
            · intro he
              apply h₁
              rw [tagOf, htag, he]
          rw [ih h fun e he => hs e (List.mem_cons_of_mem _ he)]
          exact mapGet_insert_ne (fun he => hne he.symm) _ _
        | nonStruct n =>
          cases h

theorem resourcesDiff_get_found {ctx : VMContext}
    {l₂ : List (RTy × (MoveTypeLayout × GlobalValue))}
    {acc res : List (StructTag × Op Data)} {s : StructTag}
    {ty : RTy} {layout : MoveTypeLayout} {gv : GlobalValue} {op : Op Value}
    (l₁ : List (RTy × (MoveTypeLayout × GlobalValue)))
    (h : resourcesDiff ctx (l₁ ++ (ty, layout, gv) :: l₂) acc = .ok res)
    (hgv : GlobalValue.into_effect gv = some op)
    (htag : tagOf ctx ty = some s)
    (hs : ∀ e ∈ l₂, GlobalValue.into_effect e.2.2 = none ∨ tagOf ctx e.1 ≠ some s) :
    mapGet s res = some (opToData layout op) := by
  obtain ⟨mid, hmid, h₂⟩ := resourcesDiff_append h
  rw [resourcesDiff, hgv] at h₂
  rw [tagOf] at htag
  cases htg : ctx.type_to_type_tag ty with
  | error e₀ =>
    rw [htg] at htag
    cases htag
  | ok tg =>
    rw [htg] at h₂ htag
    cases tg with
    | struct s₀ =>
      cases htag
      rw [resourcesDiff_get_skip h₂ hs]
      exact mapGet_insert_self _ _ _
    | nonStruct n =>
      cases htag

theorem resourcesDiff_all_noop {ctx : VMContext}
    {l : List (RTy × (MoveTypeLayout × GlobalValue))}
    {acc : List (StructTag × Op Data)}
    (hs : ∀ e ∈ l, GlobalValue.into_effect e.2.2 = none) :
    resourcesDiff ctx l acc = .ok acc := by
  induction l with
  | nil => rfl
  | cons e rest ih =>
    obtain ⟨ty, layout, gv⟩ := e
    rw [resourcesDiff, hs (ty, layout, gv) (List.mem_cons_self _ _)]
    exact ih fun e he => hs e (List.mem_cons_of_mem _ he)

theorem add_account_changeset_ok {cs cs₂ : ChangeSet} {addr : AccountAddress}
    {acs : AccountChangeSet}
    (h : cs.add_account_changeset addr acs = .ok cs₂) :
    mapGet addr cs.accounts = none ∧ cs₂.accounts = mapInsert addr acs cs.accounts := by
  rw [ChangeSet.add_account_changeset] at h
  cases hocc : mapGet addr cs.accounts with
  | some _ =>
    rw [hocc] at h
    cases h
  | none =>
    rw [hocc] at h
    cases h
    exact ⟨rfl, rfl⟩

theorem intoEffectsAccounts_append {ctx : VMContext}
    {l₁ l₂ : List (AccountAddress × AccountDataCache)} {cs cs' : ChangeSet}
    (h : intoEffectsAccounts ctx (l₁ ++ l₂) cs = .ok cs') :
    ∃ mid, intoEffectsAccounts ctx l₁ cs = .ok mid ∧
      intoEffectsAccounts ctx l₂ mid = .ok cs' := by
  induction l₁ generalizing cs with
  | nil => exact ⟨cs, rfl, h⟩
  | cons e rest ih =>
    obtain ⟨addr, adc⟩ := e
    rw [List.cons_append, intoEffectsAccounts] at h
    rw [intoEffectsAccounts]
    cases hrd : resourcesDiff ctx adc.data_map [] with
    | error e₀ =>
      rw [hrd] at h
      cases h
    | ok res =>
      simp only [hrd] at h ⊢
      by_cases hemp : ((modulesDiff adc.module_map).isEmpty && res.isEmpty) = true
      · rw [if_pos hemp] at h ⊢
        exact ih h
      · rw [if_neg hemp] at h ⊢
        cases hadd : cs.add_account_changeset addr
            (AccountChangeSet.from_modules_resources (modulesDiff adc.module_map) res) with
        | error msg =>
          rw [hadd] at h
          cases h
        | ok cs₂ =>
          rw [hadd] at h
          exact ih h

theorem intoEffectsAccounts_get_skip {ctx : VMContext}
    {l : List (AccountAddress × AccountDataCache)} {cs cs' : ChangeSet}
    {a : AccountAddress}
    (h : intoEffectsAccounts ctx l cs = .ok cs')
    (ha : ∀ e ∈ l, e.1 ≠ a) :
    mapGet a cs'.accounts = mapGet a cs.accounts := by
  induction l generalizing cs with
  | nil =>
    cases h
    rfl
  | cons e rest ih =>
    obtain ⟨addr, adc⟩ := e
    rw [intoEffectsAccounts] at h
    cases hrd : resourcesDiff ctx adc.data_map [] with
    | error e₀ =>
      rw [hrd] at h
      cases h
    | ok res =>
      simp only [hrd] at h
      by_cases hemp : ((modulesDiff adc.module_map).isEmpty && res.isEmpty) = true
      · rw [if_pos hemp] at h
        exact ih h fun e he => ha e (List.mem_cons_of_mem _ he)
      · rw [if_neg hemp] at h
        cases hadd : cs.add_account_changeset addr
            (AccountChangeSet.from_modules_resources (modulesDiff adc.module_map) res) with
        | error msg =>
          rw [hadd] at h
          cases h
        | ok cs₂ =>
          rw [hadd] at h
          obtain ⟨hocc, hacc⟩ := add_account_changeset_ok hadd
          rw [ih h fun e he => ha e (List.mem_cons_of_mem _ he), hacc,
            mapGet_insert_ne (Ne.symm (ha (addr, adc) (List.mem_cons_self _ _)))]

theorem intoEffectsAccounts_cons {ctx : VMContext} {addr : AccountAddress}
    {adc : AccountDataCache} {l₂ : List (AccountAddress × AccountDataCache)}
    {cs cs' : ChangeSet} {res : List (StructTag × Op Data)}
    (h : intoEffectsAccounts ctx ((addr, adc) :: l₂) cs = .ok cs')
    (hrd : resourcesDiff ctx adc.data_map [] = .ok res)
    (hl₂ : ∀ e ∈ l₂, e.1 ≠ addr) :
    (((modulesDiff adc.module_map).isEmpty && res.isEmpty) = true →
      mapGet addr cs'.accounts = mapGet addr cs.accounts) ∧
    (((modulesDiff adc.module_map).isEmpty && res.isEmpty) = false →
      mapGet addr cs'.accounts =
        some (AccountChangeSet.from_modules_resources (modulesDiff adc.module_map) res)) := by
  rw [intoEffectsAccounts] at h
  simp only [hrd] at h
  constructor
  · intro hemp
    rw [if_pos hemp] at h
    exact intoEffectsAccounts_get_skip h hl₂
  · intro hemp
    rw [if_neg (by rw [hemp]; exact Bool.false_ne_true)] at h
    cases hadd : cs.add_account_changeset addr
        (AccountChangeSet.from_modules_resources (modulesDiff adc.module_map) res) with
    | error msg =>
      rw [hadd] at h
      cases h
    | ok cs₂ =>
      rw [hadd] at h
      obtain ⟨hocc, hacc⟩ := add_account_changeset_ok hadd
      rw [intoEffectsAccounts_get_skip h hl₂, hacc, mapGet_insert_self]

theorem serializeEvents_spec {ctx : VMContext}
    {ed : List (Bytes × Nat × RTy × MoveTypeLayout × Value)} {evs : List Event}
    (h : serializeEvents ctx ed = .ok evs) :
    evs.length = ed.length ∧
    ∀ (i : Nat) (guid : Bytes) (seq : Nat) (ty : RTy) (layout : MoveTypeLayout)
      (val : Value), ed[i]? = some (guid, seq, ty, layout, val) →
      ∃ (tag : TypeTag) (blob : Bytes), ctx.type_to_type_tag ty = .ok tag ∧
        ctx.simple_serialize val layout = some blob ∧
        evs[i]? = some (guid, seq, tag, blob) := by
  induction ed generalizing evs with
  | nil =>
    cases h
    refine ⟨rfl, ?_⟩
    intro i guid seq ty layout val hi
    simp at hi
  | cons e rest ih =>
    obtain ⟨guid, seq, ty, layout, val⟩ := e
    rw [serializeEvents] at h
    cases htag : ctx.type_to_type_tag ty with
    | error e₀ =>
      rw [htag] at h
      cases h
    | ok tag =>
      rw [htag] at h
      cases hser : ctx.simple_serialize val layout with
      | none =>
        rw [hser] at h
        cases h
      | some blob =>
        rw [hser] at h
        cases hrest : serializeEvents ctx rest with
        | error e₀ =>
          rw [hrest] at h
          cases h
        | ok evs₀ =>
          rw [hrest] at h
          cases h
          obtain ⟨hlen, hspec⟩ := ih hrest
          refine ⟨by simp [hlen], ?_⟩
          intro i g sq t l v hi
          cases i with
          | zero =>
            rw [List.getElem?_cons_zero] at hi
            cases hi
            exact ⟨tag, blob, htag, hser, by rw [List.getElem?_cons_zero]⟩
          | succ n =>
            rw [List.getElem?_cons_succ] at hi
            obtain ⟨tg, bl, h₁, h₂, h₃⟩ := hspec n g sq t l v hi
            exact ⟨tg, bl, h₁, h₂, by rw [List.getElem?_cons_succ]; exact h₃⟩

theorem serializeEvents_fail {ctx : VMContext}
    {ed : List (Bytes × Nat × RTy × MoveTypeLayout × Value)}
    (htags : ∀ e ∈ ed, ∃ tag, ctx.type_to_type_tag e.2.2.1 = .ok tag)
    (hbad : ∃ e ∈ ed, ctx.simple_serialize e.2.2.2.2 e.2.2.2.1 = none) :
    serializeEvents ctx ed = .error (PartialVMError.new .INTERNAL_TYPE_ERROR) := by
  induction ed with
  | nil =>
    obtain ⟨e, he, _⟩ := hbad
    simp at he
  | cons e rest ih =>
    obtain ⟨guid, seq, ty, layout, val⟩ := e
    obtain ⟨tag, htag⟩ := htags _ (List.mem_cons_self _ _)
    rw [serializeEvents, htag]
    cases hser : ctx.simple_serialize val layout with
    | none => rfl
    | some blob =>
      obtain ⟨f, hf, hfser⟩ := hbad
      rcases List.mem_cons.mp hf with hfe | hfr
      · subst hfe
        rw [hser] at hfser
        cases hfser
      · rw [ih (fun e he => htags e (List.mem_cons_of_mem _ he)) ⟨f, hfr, hfser⟩]

theorem into_effects_ok {ctx : VMContext} {c : TransactionDataCache}
    {cs : ChangeSet} {evs : List Event}
    (h : c.into_effects ctx = .ok (cs, evs)) :
    intoEffectsAccounts ctx c.account_map ChangeSet.new = .ok cs ∧
    serializeEvents ctx c.event_data = .ok evs := by
  rw [TransactionDataCache.into_effects] at h
  cases h1 : intoEffectsAccounts ctx c.account_map ChangeSet.new with
  | error e₀ =>
    rw [h1] at h
    cases h
  | ok cs₀ =>
    rw [h1] at h
    cases h2 : serializeEvents ctx c.event_data with
    | error e₀ =>
      rw [h2] at h
      cases h
    | ok evs₀ =>
      rw [h2] at h
      cases h
      exact ⟨rfl, rfl⟩

theorem publish_module_slot {c c' : TransactionDataCache} {id : ModuleId}
    {blob : Bytes} {flag : Bool}
    (h : c.publish_module id blob flag = .ok c') :
    moduleSlot c' id = some (blob, flag) := by
  rw [TransactionDataCache.publish_module] at h
  cases h
  rw [moduleSlot]
  simp only [mapGet_insert_self]

theorem publish_module_sorted {c c' : TransactionDataCache} {id : ModuleId}
    {blob : Bytes} {flag : Bool}
    (hs : mapSorted c.account_map)
    (h : c.publish_module id blob flag = .ok c') :
    mapSorted c'.account_map := by
  rw [TransactionDataCache.publish_module] at h
  cases h
  exact mapInsert_sorted _ _ (getOrInsert_sorted _ _ hs)

theorem load_module_local {ctx : VMContext} {c : TransactionDataCache} {id : ModuleId}
    {blob : Bytes} {flag : Bool}
    (h : moduleSlot c id = some (blob, flag)) :
    c.load_module ctx id = .ok blob := by
  rw [moduleSlot] at h
  rw [TransactionDataCache.load_module]
  cases hga : mapGet id.address c.account_map with
  | none =>
    rw [hga] at h
    cases h
  | some ac =>
    simp only [hga] at h
    simp only [hga, h]

theorem load_module_miss {ctx : VMContext} {c : TransactionDataCache} {id : ModuleId}
    (h : moduleSlot c id = none) :
    c.load_module ctx id = loadModuleRemote ctx id := by
  rw [moduleSlot] at h
  rw [TransactionDataCache.load_module]
  cases hga : mapGet id.address c.account_map with
  | none => rfl
  | some ac =>
    simp only [hga] at h
    simp only [hga, h]

theorem into_effects_module_lookup {ctx : VMContext} {c : TransactionDataCache}
    {cs : ChangeSet} {evs : List Event} {addr : AccountAddress}
    {adc : AccountDataCache} {name : Identifier} {blob : Bytes} {flag : Bool}
    (hok : c.into_effects ctx = .ok (cs, evs))
    (hsa : mapSorted c.account_map)
    (hacc : mapGet addr c.account_map = some adc)
    (hmod : mapGet name adc.module_map = some (blob, flag)) :
    lookupModuleOp cs addr name = some (if flag then Op.Modify blob else Op.New blob) := by
  obtain ⟨hcs, _⟩ := into_effects_ok hok
  obtain ⟨am₁, am₂, ham, h₁, h₂⟩ := mapGet_split (mapSorted_distinct hsa) hacc
  rw [ham] at hcs
  obtain ⟨mid, hmid, hrest⟩ := intoEffectsAccounts_append hcs
  have hmid_get : mapGet addr mid.accounts = none :=
    intoEffectsAccounts_get_skip hmid h₁
  rw [intoEffectsAccounts] at hrest
  cases hrd : resourcesDiff ctx adc.data_map [] with
  | error e₀ =>
    rw [hrd] at hrest
    cases hrest
  | ok res =>
    have hcons := intoEffectsAccounts_cons (by rw [intoEffectsAccounts]; exact hrest) hrd h₂
    have hmm : (modulesDiff adc.module_map).isEmpty = false := by
      cases hmmd : modulesDiff adc.module_map with
      | nil => exact absurd hmmd (modulesDiff_ne_nil (mapGet_some_ne_nil hmod))
      | cons _ _ => rfl
    have hget := hcons.2 (by rw [hmm, Bool.false_and])
    simp only [lookupModuleOp, hget, AccountChangeSet.from_modules_resources]
    rw [modulesDiff_get, hmod]
    rfl

/-- **C2**: after `publish_module(id, bytes, _)`, a subsequent
`load_module(id)` on the same cache returns exactly `bytes`; the
conclusion holds for every context, in particular for ones whose resolver
fails or answers differently, so the resolver is not consulted for the
lookup. -/
theorem publish_then_load_module {c c' : TransactionDataCache} {id : ModuleId}
    {blob : Bytes} {flag : Bool}
    (h : c.publish_module id blob flag = .ok c') :
    ∀ ctx : VMContext, c'.load_module ctx id = .ok blob :=
  fun _ => load_module_local (publish_module_slot h)

/-- Witness for C2 at a concrete cache and module id. -/
theorem publish_then_load_module_witness :
    ∃ c', TransactionDataCache.publish_module TransactionDataCache.new ⟨3, 4⟩ [5, 6] false
        = .ok c' ∧
      c'.load_module exCtx ⟨3, 4⟩ = .ok [5, 6] :=
  ⟨_, rfl, publish_then_load_module rfl exCtx⟩

/-- **C4**: when `load_module` misses the local write set, a resolver
answer of `Ok(None)` surfaces as a linker error while a resolver failure
surfaces as an unknown-invariant-violation ("unexpected storage error")
wrapping the underlying diagnostic; the two classifications are distinct
status codes. -/
theorem load_module_miss_errors {ctx : VMContext} {c : TransactionDataCache}
    {id : ModuleId}
    (hmiss : moduleSlot c id = none) :
    (ctx.get_module id = .ok none →
      c.load_module ctx id =
        .error (((PartialVMError.new .LINKER_ERROR).with_message
          (ErrMsg.cannotFindModule id)).finish Location.Undefined)) ∧
    (∀ d : Nat, ctx.get_module id = .error d →
      c.load_module ctx id =
        .error (((PartialVMError.new .UNKNOWN_INVARIANT_VIOLATION_ERROR).with_message
          (ErrMsg.unexpectedStorageError d)).finish Location.Undefined)) ∧
    StatusCode.LINKER_ERROR ≠ StatusCode.UNKNOWN_INVARIANT_VIOLATION_ERROR := by
  refine ⟨?_, ?_, by decide⟩
  · intro hr
    rw [load_module_miss hmiss, loadModuleRemote, hr]
  · intro d hr
    rw [load_module_miss hmiss, loadModuleRemote, hr]

/-- Witness for C4: an untouched cache, a module the resolver lacks, and a
module id whose resolver read fails. -/
theorem load_module_miss_errors_witness :
    (TransactionDataCache.load_module exCtx TransactionDataCache.new ⟨3, 4⟩ =
      .error (((PartialVMError.new .LINKER_ERROR).with_message
        (ErrMsg.cannotFindModule ⟨3, 4⟩)).finish Location.Undefined)) ∧
    (TransactionDataCache.load_module exCtx TransactionDataCache.new ⟨7, 0⟩ =
      .error (((PartialVMError.new .UNKNOWN_INVARIANT_VIOLATION_ERROR).with_message
        (ErrMsg.unexpectedStorageError 13)).finish Location.Undefined)) :=
  ⟨(@load_module_miss_errors exCtx TransactionDataCache.new ⟨3, 4⟩ rfl).1 rfl,
   (@load_module_miss_errors exCtx TransactionDataCache.new ⟨7, 0⟩ rfl).2.1 13 rfl⟩

/-- **C8**: adding a second operation for a key that already holds one —
a module name, a struct tag, or an address — returns an error rather than
overwriting. The builders return the updated collection only on success,
so on error the caller's collection (the existing entry and everything
else) is unchanged by construction. -/
theorem builders_fail_on_collision {acs : AccountChangeSet} {cs : ChangeSet} :
    (∀ (name : Identifier) (op₀ op : Op Bytes), mapGet name acs.modules = some op₀ →
      acs.add_module_op name op = .error "module already exists") ∧
    (∀ (tag : StructTag) (op₀ op : Op Data), mapGet tag acs.resources = some op₀ →
      acs.add_resource_op tag op = .error "resource already exists") ∧
    (∀ (addr : AccountAddress) (acs₀ acs₁ : AccountChangeSet),
      mapGet addr cs.accounts = some acs₀ →
      cs.add_account_changeset addr acs₁ = .error "account already exists") := by
  refine ⟨?_, ?_, ?_⟩
  · intro name op₀ op h
    rw [AccountChangeSet.add_module_op, h]
  · intro tag op₀ op h
    rw [AccountChangeSet.add_resource_op, h]
  · intro addr acs₀ acs₁ h
    rw [ChangeSet.add_account_changeset, h]

/-- Witness for C8 at concrete occupied collections. -/
theorem builders_fail_on_collision_witness :
    (exAccountChangeSet.add_module_op 2 (Op.Modify [8]) = .error "module already exists") ∧
    (exAccountChangeSet.add_resource_op 5 (Op.New (Data.Serialized [1])) =
      .error "resource already exists") ∧
    (exChangeSet.add_account_changeset 1 AccountChangeSet.new =
      .error "account already exists") :=
  ⟨(@builders_fail_on_collision exAccountChangeSet exChangeSet).1 2
     (Op.New [7]) (Op.Modify [8]) rfl,
   (@builders_fail_on_collision exAccountChangeSet exChangeSet).2.1 5 Op.Delete
     (Op.New (Data.Serialized [1])) rfl,
   (@builders_fail_on_collision exAccountChangeSet exChangeSet).2.2 1 exAccountChangeSet
     AccountChangeSet.new rfl⟩

theorem numMutatedGo_spec (sender : AccountAddress)
    (l : List (AccountAddress × AccountDataCache)) (n : Nat) :
    numMutatedGo sender l n =
      n + l.countP fun e =>
        decide (e.1 ≠ sender ∧ (e.2.data_map.any fun x => GlobalValue.is_mutated x.2.2) = true) := by
  induction l generalizing n with
  | nil => simp [numMutatedGo]
  | cons e rest ih =>
    obtain ⟨addr, entry⟩ := e
    rw [numMutatedGo]
    by_cases hc : addr ≠ sender ∧ (entry.data_map.any fun x => GlobalValue.is_mutated x.2.2) = true
    · rw [if_pos hc, ih, List.countP_cons]
      have hd : decide ((addr, entry).1 ≠ sender ∧
          ((addr, entry).2.data_map.any fun x => GlobalValue.is_mutated x.2.2) = true) = true :=
        decide_eq_true hc
      rw [hd, if_pos rfl]
      omega
    · rw [if_neg hc, ih, List.countP_cons]
      have hd : decide ((addr, entry).1 ≠ sender ∧
          ((addr, entry).2.data_map.any fun x => GlobalValue.is_mutated x.2.2) = true) = false :=
        decide_eq_false hc
      rw [hd, if_neg Bool.false_ne_true]
      omega

/-- **C6**: `num_mutated_accounts(sender)` equals 1 (the sender is counted
unconditionally, so the result is at least 1) plus the number of touched
non-sender accounts whose resource map holds at least one mutated slot;
the count looks only at `data_map`, so module publishes do not contribute,
and merely-read slots (clean-cached or absent) are not mutated. The
embedded function is pure, so the cache is neither consumed nor modified. -/
theorem num_mutated_accounts_spec (c : TransactionDataCache) (sender : AccountAddress) :
    c.num_mutated_accounts sender =
      1 + c.account_map.countP (fun e =>
        decide (e.1 ≠ sender ∧ (e.2.data_map.any fun x => GlobalValue.is_mutated x.2.2) = true)) ∧
    1 ≤ c.num_mutated_accounts sender ∧
    (∀ v : Value, GlobalValue.is_mutated (GlobalValue.cleanCached v) = false) ∧
    GlobalValue.is_mutated GlobalValue.absent = false := by
  have h := numMutatedGo_spec sender c.account_map 1
  refine ⟨h, ?_, fun v => rfl, rfl⟩
  rw [TransactionDataCache.num_mutated_accounts, h]
  omega

/-- **C5**: every entry of a touched account's module write set yields
exactly one operation in the change set — `Modify` when the stored
republishing flag is true, `New` when it is false — and is never
omitted. -/
theorem into_effects_module_ops_total {ctx : VMContext} {c : TransactionDataCache}
    {cs : ChangeSet} {evs : List Event} {addr : AccountAddress}
    {adc : AccountDataCache} {name : Identifier} {blob : Bytes} {flag : Bool}
    (hok : c.into_effects ctx = .ok (cs, evs))
    (hsa : mapSorted c.account_map)
    (hacc : mapGet addr c.account_map = some adc)
    (hmod : mapGet name adc.module_map = some (blob, flag)) :
    lookupModuleOp cs addr name = some (if flag then Op.Modify blob else Op.New blob) :=
  into_effects_module_lookup hok hsa hacc hmod

/-- Witness for C5 at the concrete cache: the republished module (1, 2)
appears as `Modify`. -/
theorem into_effects_module_ops_total_witness :
    ∃ cs evs, TransactionDataCache.into_effects exCtx exCache = .ok (cs, evs) ∧
      lookupModuleOp cs 1 2 = some (Op.Modify [7]) := by
  refine ⟨_, _, rfl, ?_⟩
  exact @into_effects_module_ops_total exCtx exCache _ _ 1
    ⟨[(5, (50, GlobalValue.dirtyCached 11)), (6, (60, GlobalValue.cleanCached 2))],
     [(2, ([7], true))]⟩
    2 [7] true rfl (by decide) rfl rfl

/-- **C10**: publishing the same module id twice in one transaction
succeeds silently and overwrites: the write set holds the second blob and
flag, later loads return the second blob, the operation `into_effects`
emits reflects only the last publish, and `publish_module` never errors
(unlike the effects-model builders). -/
theorem publish_module_overwrites {c c₁ c₂ : TransactionDataCache} {id : ModuleId}
    {b₁ b₂ : Bytes} {f₁ f₂ : Bool}
    (hs : mapSorted c.account_map)
    (h₁ : c.publish_module id b₁ f₁ = .ok c₁)
    (h₂ : c₁.publish_module id b₂ f₂ = .ok c₂) :
    moduleSlot c₂ id = some (b₂, f₂) ∧
    (∀ ctx : VMContext, c₂.load_module ctx id = .ok b₂) ∧
    (∀ (ctx : VMContext) (cs : ChangeSet) (evs : List Event),
      c₂.into_effects ctx = .ok (cs, evs) →
      lookupModuleOp cs id.address id.name =
        some (if f₂ then Op.Modify b₂ else Op.New b₂)) ∧
    (∀ (c₀ : TransactionDataCache) (id₀ : ModuleId) (b : Bytes) (f : Bool),
      ∃ c', c₀.publish_module id₀ b f = .ok c') := by
  have hslot := publish_module_slot h₂
  refine ⟨hslot, fun _ => load_module_local hslot, ?_, fun c₀ id₀ b f => ⟨_, rfl⟩⟩
  intro ctx cs evs hok
  have hs₂ : mapSorted c₂.account_map :=
    publish_module_sorted (publish_module_sorted hs h₁) h₂
  rw [moduleSlot] at hslot
  cases hga : mapGet id.address c₂.account_map with
  | none =>
    rw [hga] at hslot
    cases hslot
  | some ac =>
    rw [hga] at hslot
    exact into_effects_module_lookup hok hs₂ hga hslot

/-- Witness for C10: publish module (3, 4) twice with different blobs and
flags; only the second publish is visible. -/
theorem publish_module_overwrites_witness :
    ∃ c₁ c₂, TransactionDataCache.publish_module TransactionDataCache.new ⟨3, 4⟩ [1] false
        = .ok c₁ ∧
      c₁.publish_module ⟨3, 4⟩ [2, 2] true = .ok c₂ ∧
      moduleSlot c₂ ⟨3, 4⟩ = some ([2, 2], true) ∧
      c₂.load_module exCtx ⟨3, 4⟩ = .ok [2, 2] := by
  refine ⟨_, _, rfl, rfl, ?_, ?_⟩
  · exact (publish_module_overwrites (by decide) rfl rfl).1
  · exact (publish_module_overwrites (by decide) rfl rfl).2.1 exCtx

/-- **C7**: the event list `into_effects` produces has one entry per
`emit_event` call, in emission order, each serialized with the layout
recorded at emission time; and if the change-set part succeeds, every
event type resolves to a tag and some event value fails to serialize, then
`into_effects` fails with an internal type error. -/
theorem into_effects_event_order {ctx : VMContext} {c : TransactionDataCache} :
    (∀ (cs : ChangeSet) (evs : List Event), c.into_effects ctx = .ok (cs, evs) →
      evs.length = c.event_data.length ∧
      ∀ (i : Nat) (guid : Bytes) (seq : Nat) (ty : RTy) (layout : MoveTypeLayout)
        (val : Value), c.event_data[i]? = some (guid, seq, ty, layout, val) →
        ∃ (tag : TypeTag) (blob : Bytes), ctx.type_to_type_tag ty = .ok tag ∧
          ctx.simple_serialize val layout = some blob ∧
          evs[i]? = some (guid, seq, tag, blob)) ∧
    ((∃ cs₀, intoEffectsAccounts ctx c.account_map ChangeSet.new = .ok cs₀) →
      (∀ e ∈ c.event_data, ∃ tag, ctx.type_to_type_tag e.2.2.1 = .ok tag) →
      (∃ e ∈ c.event_data, ctx.simple_serialize e.2.2.2.2 e.2.2.2.1 = none) →
      c.into_effects ctx = .error (PartialVMError.new .INTERNAL_TYPE_ERROR)) := by
  constructor
  · intro cs evs hok
    exact serializeEvents_spec (into_effects_ok hok).2
  · rintro ⟨cs₀, hcs⟩ htags hbad
    rw [TransactionDataCache.into_effects, hcs, serializeEvents_fail htags hbad]

/-- Witness for C7: the two-event cache commits to the serialized events
in emission order; the cache whose event holds value 77 fails with an
internal type error. -/
theorem into_effects_event_order_witness :
    (∃ cs evs, TransactionDataCache.into_effects exCtx exCache = .ok (cs, evs) ∧
      evs = [([1], 0, TypeTag.struct 5, [33]), ([2], 1, TypeTag.struct 6, [44])] ∧
      evs.length = exCache.event_data.length) ∧
    TransactionDataCache.into_effects exCtx exCacheBadEvent =
      .error (PartialVMError.new .INTERNAL_TYPE_ERROR) := by
  constructor
  · refine ⟨_, _, rfl, rfl, ?_⟩
    exact ((@into_effects_event_order exCtx exCache).1 _ _ rfl).1
  · refine (@into_effects_event_order exCtx exCacheBadEvent).2
      ⟨ChangeSet.new, rfl⟩ ?_ ⟨([1], 0, 5, 50, 77), by decide, rfl⟩
    intro e he
    have he' : e = ([1], 0, 5, 50, 77) := List.mem_singleton.mp he
    subst he'
    exact ⟨TypeTag.struct 5, rfl⟩

theorem load_resource_cached {ctx : VMContext} {c : TransactionDataCache}
    {addr : AccountAddress} {ty : RTy} {layout : MoveTypeLayout} {gv : GlobalValue}
    (h : resourceSlot c addr ty = some (layout, gv)) :
    c.load_resource ctx addr ty = .ok (c, gv, none) := by
  rw [resourceSlot] at h
  cases hga : mapGet addr c.account_map with
  | none =>
    rw [hga] at h
    cases h
  | some ac =>
    simp only [hga] at h
    rw [TransactionDataCache.load_resource]
    simp [getOrInsert, mapContains, hga, h]

theorem load_resource_first_touch (ctx : VMContext) {c : TransactionDataCache}
    {addr : AccountAddress} {ty : RTy}
    (hfirst : resourceSlot c addr ty = none) :
    c.load_resource ctx addr ty = loadResourceFirstTouch ctx c addr ty := by
  rw [resourceSlot] at hfirst
  rw [TransactionDataCache.load_resource]
  cases hga : mapGet addr c.account_map with
  | none =>
    simp [getOrInsert, mapContains, hga, mapGet_insert_self, AccountDataCache.new, mapGet]
  | some ac =>
    simp only [hga] at hfirst
    simp [getOrInsert, mapContains, hga, hfirst]

theorem resourceSlot_installResource (c : TransactionDataCache)
    (addr : AccountAddress) (ty : RTy) (layout : MoveTypeLayout) (gv : GlobalValue) :
    resourceSlot (installResource c addr ty layout gv) addr ty = some (layout, gv) := by
  rw [resourceSlot, installResource]
  simp [mapGet_insert_self]

/-- **C3**: the first `load_resource` call for an (address, type) pair, if
it succeeds, returns a non-absent load signal — `some (byte length)` when
the resolver returned bytes, `some "not found"` when it returned absence —
and every subsequent call for the same pair returns the same cache, the
same slot and no load signal; the subsequent-call conclusion holds for
every context, so the resolver is not queried again. -/
theorem load_resource_exactly_once_signal {ctx : VMContext}
    {c c' : TransactionDataCache} {addr : AccountAddress} {ty : RTy}
    {gv : GlobalValue} {sig : Option (Option Nat)}
    (hfirst : resourceSlot c addr ty = none)
    (h : c.load_resource ctx addr ty = .ok (c', gv, sig)) :
    ((∃ s blob, tagOf ctx ty = some s ∧ ctx.get_resource addr s = .ok (some blob) ∧
        sig = some (some blob.length)) ∨
      (∃ s, tagOf ctx ty = some s ∧ ctx.get_resource addr s = .ok none ∧
        sig = some none)) ∧
    ∀ ctx' : VMContext, c'.load_resource ctx' addr ty = .ok (c', gv, none) := by
  rw [load_resource_first_touch ctx hfirst, loadResourceFirstTouch] at h
  cases htag : ctx.type_to_type_tag ty with
  | error e₀ =>
    rw [htag] at h
    cases h
  | ok tg =>
    simp only [htag] at h
    cases tg with
    | nonStruct n => cases h
    | struct s =>
      cases hlay : ctx.type_to_type_layout ty with
      | error e₀ =>
        simp only [hlay] at h
        cases h
      | ok lay =>
        simp only [hlay] at h
        cases hgr : ctx.get_resource addr s with
        | error d =>
          simp only [hgr] at h
          cases h
        | ok ob =>
          simp only [hgr] at h
          cases ob with
          | some blob =>
            cases hdes : ctx.simple_deserialize blob lay with
            | none =>
              simp only [hdes] at h
              cases h
            | some val =>
              simp only [hdes] at h
              cases h
              refine ⟨Or.inl ⟨s, blob, by rw [tagOf, htag], hgr, rfl⟩, ?_⟩
              intro ctx'
              exact load_resource_cached (resourceSlot_installResource c addr ty lay _)
          | none =>
            cases h
            refine ⟨Or.inr ⟨s, by rw [tagOf, htag], hgr, rfl⟩, ?_⟩
            intro ctx'
            exact load_resource_cached (resourceSlot_installResource c addr ty lay _)

/-- Witness for C3: loading (1, 5) from a fresh cache signals 3 bytes; the
repeated call returns the same cache and slot with no signal. -/
theorem load_resource_exactly_once_signal_witness :
    ∃ c' gv, TransactionDataCache.load_resource exCtx TransactionDataCache.new 1 5 =
        .ok (c', gv, some (some 3)) ∧
      c'.load_resource exCtx 1 5 = .ok (c', gv, none) := by
  refine ⟨_, _, rfl, ?_⟩
  exact (@load_resource_exactly_once_signal exCtx TransactionDataCache.new _ 1 5 _ _
    rfl rfl).2 exCtx

/-- **C9**: on a first-touch `load_resource`, a type resolving to a
non-struct tag fails with an internal type error; resolver bytes that fail
to decode fail with `FAILED_TO_DESERIALIZE_RESOURCE`; a resolver error
fails wrapped as an unknown-invariant-violation carrying the diagnostic.
Each case returns an error, so no slot value is produced. -/
theorem load_resource_first_touch_failures {ctx : VMContext}
    {c : TransactionDataCache} {addr : AccountAddress} {ty : RTy}
    (hfirst : resourceSlot c addr ty = none) :
    (∀ n : Nat, ctx.type_to_type_tag ty = .ok (TypeTag.nonStruct n) →
      c.load_resource ctx addr ty = .error (PartialVMError.new .INTERNAL_TYPE_ERROR)) ∧
    (∀ (s : StructTag) (lay : MoveTypeLayout) (blob : Bytes),
      ctx.type_to_type_tag ty = .ok (TypeTag.struct s) →
      ctx.type_to_type_layout ty = .ok lay →
      ctx.get_resource addr s = .ok (some blob) →
      ctx.simple_deserialize blob lay = none →
      c.load_resource ctx addr ty =
        .error ((PartialVMError.new .FAILED_TO_DESERIALIZE_RESOURCE).with_message
          (ErrMsg.failedToDeserializeResource s addr))) ∧
    (∀ (s : StructTag) (lay : MoveTypeLayout) (d : Nat),
      ctx.type_to_type_tag ty = .ok (TypeTag.struct s) →
      ctx.type_to_type_layout ty = .ok lay →
      ctx.get_resource addr s = .error d →
      c.load_resource ctx addr ty =
        .error ((PartialVMError.new .UNKNOWN_INVARIANT_VIOLATION_ERROR).with_message
          (ErrMsg.unexpectedStorageError d))) := by
  refine ⟨?_, ?_, ?_⟩
  · intro n htag
    simp [load_resource_first_touch ctx hfirst, loadResourceFirstTouch, htag]
  · intro s lay blob htag hlay hgr hdes
    simp [load_resource_first_touch ctx hfirst, loadResourceFirstTouch, htag, hlay, hgr, hdes]
  · intro s lay d htag hlay hgr
    simp [load_resource_first_touch ctx hfirst, loadResourceFirstTouch, htag, hlay, hgr]

/-- Witness for C9: type 99 is non-struct; resource (1, 6) holds bytes
that fail to decode; reading (7, 8) fails with diagnostic 42. -/
theorem load_resource_first_touch_failures_witness :
    (TransactionDataCache.load_resource exCtx TransactionDataCache.new 1 99 =
      .error (PartialVMError.new .INTERNAL_TYPE_ERROR)) ∧
    (TransactionDataCache.load_resource exCtx TransactionDataCache.new 1 6 =
      .error ((PartialVMError.new .FAILED_TO_DESERIALIZE_RESOURCE).with_message
        (ErrMsg.failedToDeserializeResource 6 1))) ∧
    (TransactionDataCache.load_resource exCtx TransactionDataCache.new 7 8 =
      .error ((PartialVMError.new .UNKNOWN_INVARIANT_VIOLATION_ERROR).with_message
        (ErrMsg.unexpectedStorageError 42))) :=
  ⟨(@load_resource_first_touch_failures exCtx TransactionDataCache.new 1 99 rfl).1 0 rfl,
   (@load_resource_first_touch_failures exCtx TransactionDataCache.new 1 6
      rfl).2.1 6 6 [0] rfl rfl rfl rfl,
   (@load_resource_first_touch_failures exCtx TransactionDataCache.new 7 8
      rfl).2.2 8 8 42 rfl rfl rfl⟩

/-- **C1**: `into_effects` performs a three-way diff of every touched
resource slot: the change set's operation at the resolved struct tag is
exactly the `Data`-wrapped image of the slot's diff — the key is omitted
when the diff is a no-op, a create yields `New`, a change to a previously
present resource yields `Modify`, a deletion yields `Delete` — and a
touched account whose module write set is empty and whose slots all diff
to no-ops is omitted from the change set entirely. The tag-injectivity
hypothesis reflects that the loader resolves distinct runtime types to
distinct canonical tags. -/
theorem into_effects_resource_three_way_diff {ctx : VMContext}
    {c : TransactionDataCache} {cs : ChangeSet} {evs : List Event}
    {addr : AccountAddress} {adc : AccountDataCache}
    {ty : RTy} {layout : MoveTypeLayout} {gv : GlobalValue} {s : StructTag}
    (hok : c.into_effects ctx = .ok (cs, evs))
    (hsa : mapSorted c.account_map)
    (hacc : mapGet addr c.account_map = some adc)
    (hsd : mapSorted adc.data_map)
    (hslot : mapGet ty adc.data_map = some (layout, gv))
    (htag : tagOf ctx ty = some s)
    (hinj : ∀ e ∈ adc.data_map, e.1 ≠ ty → tagOf ctx e.1 ≠ some s) :
    lookupResourceOp cs addr s = Option.map (opToData layout) (GlobalValue.into_effect gv) ∧
    ((adc.module_map = [] ∧ ∀ e ∈ adc.data_map, GlobalValue.into_effect e.2.2 = none) →
      mapGet addr cs.accounts = none) := by
  obtain ⟨hcs, _⟩ := into_effects_ok hok
  obtain ⟨am₁, am₂, ham, h₁, h₂⟩ := mapGet_split (mapSorted_distinct hsa) hacc
  rw [ham] at hcs
  obtain ⟨mid, hmid, hrest⟩ := intoEffectsAccounts_append hcs
  have hmid_get : mapGet addr mid.accounts = none := by
    rw [intoEffectsAccounts_get_skip hmid h₁]
    rfl
  have hrest' := hrest
  rw [intoEffectsAccounts] at hrest'
  cases hrd : resourcesDiff ctx adc.data_map [] with
  | error e₀ =>
    rw [hrd] at hrest'
    cases hrest'
  | ok res =>
    have hcons := intoEffectsAccounts_cons hrest hrd h₂
    have hdd := mapSorted_distinct hsd
    constructor
    · cases hgv : GlobalValue.into_effect gv with
      | none =>
        have hall : ∀ e ∈ adc.data_map,
            GlobalValue.into_effect e.2.2 = none ∨ tagOf ctx e.1 ≠ some s := by
          intro e he
          by_cases hety : e.1 = ty
          · left
            have h3 := mem_mapGet hdd he
            rw [hety, hslot] at h3
            injection h3 with h4
            rw [← h4]
            exact hgv
          · exact Or.inr (hinj e he hety)
        have hres_get : mapGet s res = none := by
          rw [resourcesDiff_get_skip hrd hall]
          rfl
        by_cases hemp : ((modulesDiff adc.module_map).isEmpty && res.isEmpty) = true
        · have hg := hcons.1 hemp
          simp only [lookupResourceOp, hg, hmid_get]
          rfl
        · have hempf : ((modulesDiff adc.module_map).isEmpty && res.isEmpty) = false := by
            revert hemp
            cases (modulesDiff adc.module_map).isEmpty && res.isEmpty <;> simp
          have hg := hcons.2 hempf
          simp only [lookupResourceOp, hg, AccountChangeSet.from_modules_resources]
          rw [hres_get]
          rfl
      | some op =>
        obtain ⟨dm₁, dm₂, hdm, hd₁, hd₂⟩ := mapGet_split hdd hslot
        have hs₂ : ∀ e ∈ dm₂,
            GlobalValue.into_effect e.2.2 = none ∨ tagOf ctx e.1 ≠ some s := by
          intro e he
          refine Or.inr (hinj e ?_ (hd₂ e he))
          rw [hdm]
          exact List.mem_append_right _ (List.mem_cons_of_mem _ he)
        have hfound : mapGet s res = some (opToData layout op) :=
          resourcesDiff_get_found dm₁ (by rw [← hdm]; exact hrd) hgv htag hs₂
        have hresne : res.isEmpty = false := by
          cases hres0 : res with
          | nil =>
            rw [hres0] at hfound
            cases hfound
          | cons _ _ => rfl
        have hg := hcons.2 (by rw [hresne, Bool.and_false])
        simp only [lookupResourceOp, hg, AccountChangeSet.from_modules_resources]
        rw [hfound]
        rfl
    · rintro ⟨hm0, hnoop⟩
      have hok0 : resourcesDiff ctx adc.data_map [] = .ok ([] : List (StructTag × Op Data)) :=
        resourcesDiff_all_noop hnoop
      rw [hrd] at hok0
      injection hok0 with hres0
      have hmm0 : modulesDiff adc.module_map = [] := by
        rw [hm0]
        rfl
      have hemp : ((modulesDiff adc.module_map).isEmpty && res.isEmpty) = true := by
        rw [hmm0, hres0]
        rfl
      rw [hcons.1 hemp]
      exact hmid_get

/-- Witness for C1 at the concrete cache: the dirty slot (1, 5) commits as
`Modify` with its cached value and layout, the clean slot (1, 6) is
omitted, and account 4 (only a clean read) is omitted entirely. -/
theorem into_effects_resource_three_way_diff_witness :
    ∃ cs evs, TransactionDataCache.into_effects exCtx exCache = .ok (cs, evs) ∧
      lookupResourceOp cs 1 5 = some (Op.Modify (Data.Cached 11 50)) ∧
      lookupResourceOp cs 1 6 = none ∧
      mapGet 4 cs.accounts = none := by
  refine ⟨_, _, rfl, ?_, ?_, ?_⟩
  · exact (@into_effects_resource_three_way_diff exCtx exCache _ _ 1
      ⟨[(5, (50, GlobalValue.dirtyCached 11)), (6, (60, GlobalValue.cleanCached 2))],
       [(2, ([7], true))]⟩
      5 50 (GlobalValue.dirtyCached 11) 5
      rfl (by decide) rfl (by decide) rfl rfl (by decide)).1
  · exact (@into_effects_resource_three_way_diff exCtx exCache _ _ 1
      ⟨[(5, (50, GlobalValue.dirtyCached 11)), (6, (60, GlobalValue.cleanCached 2))],
       [(2, ([7], true))]⟩
      6 60 (GlobalValue.cleanCached 2) 6
      rfl (by decide) rfl (by decide) rfl rfl (by decide)).1
  · exact (@into_effects_resource_three_way_diff exCtx exCache _ _ 4
      ⟨[(9, (90, GlobalValue.cleanCached 3))], []⟩
      9 90 (GlobalValue.cleanCached 3) 9
      rfl (by decide) rfl (by decide) rfl rfl (by decide)).2 ⟨rfl, by decide⟩

end MoveVMCache
